import Mathlib

/-!
Verification of the zone-aggregation engine of the SIH waste-report system.

The definitions below are a shallow embedding of `database.py`.  Numeric
`REAL` columns (coordinates, severity, confidence) are modelled as `ℚ`;
`INTEGER` columns as `ℤ` or `ℕ`; ISO-8601 timestamp strings, which the
source orders lexicographically (equivalently: chronologically), are
modelled as `ℕ`.  Python's `int()` conversion (truncation toward zero) is
`pyInt`.  Each call of `datetime.now()` in the source is an explicit
parameter here; `add_photo` reads the clock twice (once for the photo row,
once inside `update_zone`), hence its two timestamp parameters.  A SQLite
table is a list of rows in rowid (insertion) order; a `SELECT` without
`ORDER BY` reads in that order, and `ORDER BY` is a deterministic sort
with ties in rowid order.
-/

/-- Row of the `photos` table of `database.py` (`init_db`). -/
structure Photo where
  id : Nat
  image_path : String
  latitude : ℚ
  longitude : ℚ
  timestamp : Nat
  waste_category : String
  severity_score : ℚ
  confidence : ℚ
  is_verified : Bool
deriving DecidableEq

/-- Row of the `zones` table of `database.py` (`init_db`). -/
structure Zone where
  id : Nat
  center_lat : ℚ
  center_lng : ℚ
  radius : ℚ
  waste_level : ℤ
  photo_count : Nat
  last_updated : Nat
deriving DecidableEq

/-- The SQLite database state: both tables in rowid order together with the
next `AUTOINCREMENT` value of each. -/
structure DB where
  photos : List Photo
  zones : List Zone
  nextPhotoId : Nat
  nextZoneId : Nat
deriving DecidableEq

/-- A database in which no row has ever been inserted (`AUTOINCREMENT`
starts at 1). -/
def emptyDB : DB := { photos := [], zones := [], nextPhotoId := 1, nextZoneId := 1 }

/-- Python's `int()` applied to a (non-integral) number: truncation toward
zero, which agrees with `Int.floor` on non-negative inputs. -/
def pyInt (q : ℚ) : ℤ := if 0 ≤ q then ⌊q⌋ else -⌊-q⌋

/-- The default of the `radius` parameter of `update_zone` and
`get_zone_by_location` in `database.py`: `0.005`. -/
def defaultRadius : ℚ := 0.005

/-- The `WHERE ABS(center_lat - ?) < ? AND ABS(center_lng - ?) < ?` test
that appears verbatim in both `update_zone` and `get_zone_by_location`:
strict containment of the query point in the axis-aligned square cell of
half-width `radius` around the zone's center. -/
def matchesLoc (latitude longitude radius : ℚ) (z : Zone) : Bool :=
  decide (|z.center_lat - latitude| < radius ∧ |z.center_lng - longitude| < radius)

/-- `update_zone` of `database.py`.  The zone-existence `SELECT` has no
`ORDER BY` and `fetchone()` takes the first row in rowid order
(`List.find?`).  On a hit the source first sets
`photo_count = zone['photo_count'] + 1` and then computes
`new_level = int((current_level * photo_count + severity_score) / (photo_count + 1))`,
so the already-incremented count appears both in the numerator weight and
(plus one) in the denominator.  On a miss it inserts a fresh zone.
`ts` is the `datetime.now()` read inside `update_zone`. -/
def update_zone (latitude longitude severity_score radius : ℚ) (ts : Nat) (st : DB) : DB :=
  match st.zones.find? (matchesLoc latitude longitude radius) with
  | some zone =>
      let photo_count := zone.photo_count + 1
      let new_level :=
        pyInt (((zone.waste_level : ℚ) * (photo_count : ℚ) + severity_score) / ((photo_count : ℚ) + 1))
      { st with
        zones := st.zones.map fun w =>
          if w.id = zone.id then
            { w with waste_level := new_level, photo_count := photo_count, last_updated := ts }
          else w }
  | none =>
      { st with
        zones := st.zones ++
          [{ id := st.nextZoneId, center_lat := latitude, center_lng := longitude,
             radius := radius, waste_level := pyInt severity_score, photo_count := 1,
             last_updated := ts }],
        nextZoneId := st.nextZoneId + 1 }

/-- `add_photo` of `database.py`, with `update_zone`'s `radius` parameter
exposed (the source's `add_photo` always passes the default).  It inserts
the photo row, runs `update_zone`, and returns `cursor.lastrowid`.
`tsPhoto` and `tsZone` are the two successive `datetime.now()` reads. -/
def add_photoR (radius : ℚ) (image_path : String) (latitude longitude : ℚ)
    (waste_category : String) (severity_score confidence : ℚ)
    (tsPhoto tsZone : Nat) (st : DB) : Nat × DB :=
  let photo : Photo :=
    { id := st.nextPhotoId, image_path := image_path, latitude := latitude,
      longitude := longitude, timestamp := tsPhoto, waste_category := waste_category,
      severity_score := severity_score, confidence := confidence, is_verified := false }
  let st1 : DB := { st with photos := st.photos ++ [photo], nextPhotoId := st.nextPhotoId + 1 }
  (photo.id, update_zone latitude longitude severity_score radius tsZone st1)

/-- `add_photo` exactly as called in the source: default radius. -/
def add_photo (image_path : String) (latitude longitude : ℚ)
    (waste_category : String) (severity_score confidence : ℚ)
    (tsPhoto tsZone : Nat) (st : DB) : Nat × DB :=
  add_photoR defaultRadius image_path latitude longitude waste_category
    severity_score confidence tsPhoto tsZone st

/-- `add_photo` with the possibility that the `update_zone` step raises a
storage error made explicit (`zoneFail`).  In the source there is no
exception handler in `add_photo`, and `conn.commit()` on the connection
holding the photo `INSERT` runs only after `update_zone` returns; a raised
exception therefore propagates to the caller and the uncommitted `INSERT`
is discarded, leaving the durable state as it was (`Except.error st`). -/
def add_photoE (zoneFail : Bool) (image_path : String) (latitude longitude : ℚ)
    (waste_category : String) (severity_score confidence : ℚ)
    (tsPhoto tsZone : Nat) (st : DB) : Except DB (Nat × DB) :=
  if zoneFail then Except.error st
  else Except.ok (add_photo image_path latitude longitude waste_category
    severity_score confidence tsPhoto tsZone st)

/-- The comparison realised by `ORDER BY timestamp DESC` on the `photos`
table: timestamp descending, rows with equal timestamps in rowid order. -/
@[reducible] def pleR (a b : Photo) : Prop :=
  b.timestamp < a.timestamp ∨ (a.timestamp = b.timestamp ∧ a.id ≤ b.id)

instance pleR_total : IsTotal Photo pleR :=
  ⟨fun a b => by simp only [pleR]; omega⟩

instance pleR_trans : IsTrans Photo pleR :=
  ⟨fun a b c hab hbc => by simp only [pleR] at hab hbc ⊢; omega⟩

/-- The comparison realised by `ORDER BY waste_level DESC` on the `zones`
table: waste level descending, rows with equal levels in rowid order. -/
@[reducible] def zleR (a b : Zone) : Prop :=
  b.waste_level < a.waste_level ∨ (a.waste_level = b.waste_level ∧ a.id ≤ b.id)

instance zleR_total : IsTotal Zone zleR :=
  ⟨fun a b => by simp only [zleR]; omega⟩

instance zleR_trans : IsTrans Zone zleR :=
  ⟨fun a b c hab hbc => by simp only [zleR] at hab hbc ⊢; omega⟩

/-- `get_all_photos` of `database.py`: every photo row,
`ORDER BY timestamp DESC`. -/
def get_all_photos (st : DB) : List Photo :=
  List.insertionSort pleR st.photos

/-- `get_photos_in_bounds` of `database.py`: rows with
`latitude <= north AND latitude >= south AND longitude <= east AND longitude >= west`
(all bounds inclusive), `ORDER BY timestamp DESC`. -/
def get_photos_in_bounds (north south east west : ℚ) (st : DB) : List Photo :=
  List.insertionSort pleR
    (st.photos.filter fun p =>
      decide (p.latitude ≤ north ∧ south ≤ p.latitude ∧ p.longitude ≤ east ∧ west ≤ p.longitude))

/-- `get_all_zones` of `database.py`: every zone row,
`ORDER BY waste_level DESC`. -/
def get_all_zones (st : DB) : List Zone :=
  List.insertionSort zleR st.zones

/-- `get_zone_by_location` of `database.py`: `fetchone()` on the same
cell-containment `SELECT` as `update_zone`, first row in rowid order. -/
def get_zone_by_location (latitude longitude radius : ℚ) (st : DB) : Option Zone :=
  st.zones.find? (matchesLoc latitude longitude radius)

/-- `get_zone_by_location` viewed as a state transformer: the function
only opens a connection, `SELECT`s and closes, so the database state it
leaves behind is the one it was given. -/
def get_zone_by_locationSt (latitude longitude radius : ℚ) (st : DB) : Option Zone × DB :=
  (get_zone_by_location latitude longitude radius st, st)

/-- One entry of a replayed ingestion sequence: the arguments of one
`add_photo` call together with the two clock reads made during it. -/
structure ReportInput where
  image_path : String
  latitude : ℚ
  longitude : ℚ
  waste_category : String
  severity_score : ℚ
  confidence : ℚ
  tsPhoto : Nat
  tsZone : Nat
deriving DecidableEq

/-- Applying one replayed report to the database. -/
def replayStep (radius : ℚ) (st : DB) (r : ReportInput) : DB :=
  (add_photoR radius r.image_path r.latitude r.longitude r.waste_category
    r.severity_score r.confidence r.tsPhoto r.tsZone st).2

/-- Replaying a whole sequence of reports, in order, from the empty
database, with a fixed zone radius. -/
def replayR (radius : ℚ) (rs : List ReportInput) : DB :=
  rs.foldl (replayStep radius) emptyDB

/-- The ordering claimed for `listZones()`: waste level descending, ties
broken by most-recent `last_updated` first. -/
def specZoneOrder (l : List Zone) : Prop :=
  l.Pairwise fun a b => b.waste_level < a.waste_level ∨
    (a.waste_level = b.waste_level ∧ b.last_updated ≤ a.last_updated)

/-- Zone produced by the first demo report. -/
def zoneA : Zone := ⟨1, 0, 0, defaultRadius, 5, 1, 1⟩

/-- Zone produced by the second, far-away demo report. -/
def zoneB : Zone := ⟨2, 1, 1, defaultRadius, 5, 1, 2⟩

/-- First demo report: location `(0, 0)`, severity `5`, clock reads `1`. -/
def reportA : ReportInput := ⟨"a.jpg", 0, 0, "mixed", 5, 1, 1, 1⟩

/-- Second demo report: location `(1, 1)` (outside every cell of the first
zone), severity `5`, clock reads `2`. -/
def reportB : ReportInput := ⟨"b.jpg", 1, 1, "mixed", 5, 1, 2, 2⟩

/-- Zone rowids are strictly increasing down the table and below the next
`AUTOINCREMENT` value. -/
def zoneIdsOrdered (st : DB) : Prop :=
  st.zones.Pairwise (fun a b => a.id < b.id) ∧ ∀ z ∈ st.zones, z.id < st.nextZoneId

/-- A one-zone store used to witness the claims about lookups. -/
def dbA : DB := { photos := [], zones := [zoneA], nextPhotoId := 1, nextZoneId := 2 }

/-- Zone with waste level 8 after one report, used to exhibit the update
formula. -/
def zoneC : Zone := ⟨1, 0, 0, defaultRadius, 8, 1, 1⟩

/-- Store holding only `zoneC`. -/
def dbC : DB := { photos := [], zones := [zoneC], nextPhotoId := 1, nextZoneId := 2 }

/-- Python truncation agrees with `Int.floor` on non-negative inputs. -/
lemma pyInt_eq_floor {q : ℚ} (h : 0 ≤ q) : pyInt q = ⌊q⌋ := if_pos h

/-- Floor of a rational in `[0, 10]` is an integer in `[0, 10]`. -/
lemma floor_mem_range {q : ℚ} (h0 : 0 ≤ q) (h10 : q ≤ 10) : 0 ≤ ⌊q⌋ ∧ ⌊q⌋ ≤ 10 := by
  refine ⟨Int.floor_nonneg.mpr h0, ?_⟩
  have h1 : ((⌊q⌋ : ℚ)) ≤ 10 := le_trans (Int.floor_le q) h10
  exact_mod_cast h1

/-- The incremental quotient computed by `update_zone` stays in `[0, 10]`
whenever the current level and the incoming severity do. -/
lemma avg_mem_range {L : ℤ} {c : ℕ} {s : ℚ} (hL0 : 0 ≤ L) (hL10 : L ≤ 10)
    (hs0 : 0 ≤ s) (hs10 : s ≤ 10) :
    0 ≤ ((L : ℚ) * ((c : ℚ) + 1) + s) / ((c : ℚ) + 2) ∧
      ((L : ℚ) * ((c : ℚ) + 1) + s) / ((c : ℚ) + 2) ≤ 10 := by
  have hc : (0 : ℚ) ≤ (c : ℚ) := Nat.cast_nonneg c
  have hL0q : (0 : ℚ) ≤ (L : ℚ) := by exact_mod_cast hL0
  have hL10q : (L : ℚ) ≤ 10 := by exact_mod_cast hL10
  have hd : (0 : ℚ) < (c : ℚ) + 2 := by linarith
  constructor
  · apply div_nonneg _ (le_of_lt hd)
    nlinarith
  · rw [div_le_iff₀ hd]
    nlinarith

/-- A successful `find?` splits its list into a prefix of rows failing the
predicate, the returned row, and a suffix. -/
lemma find?_first {α : Type} (p : α → Bool) :
    ∀ {l : List α} {a : α}, l.find? p = some a →
      ∃ l1 l2, l = l1 ++ a :: l2 ∧ (∀ x ∈ l1, p x = false) ∧ p a = true := by
  intro l
  induction l with
  | nil => intro a h; simp [List.find?] at h
  | cons b t ih =>
    intro a h
    by_cases hb : p b
    · rw [List.find?_cons_of_pos _ hb] at h
      obtain rfl : b = a := by injection h
      exact ⟨[], t, by simp, by simp, hb⟩
    · rw [List.find?_cons_of_neg _ (by simpa using hb)] at h
      obtain ⟨l1, l2, hsplit, h1, h2⟩ := ih h
      refine ⟨b :: l1, l2, by rw [hsplit]; rfl, ?_, h2⟩
      intro x hx
      rcases List.mem_cons.mp hx with rfl | hx
      · simpa using hb
      · exact h1 x hx

/-- Invariant preservation along a `foldl`, with a per-element guard. -/
lemma foldl_inv {σ ρ : Type} (P : σ → Prop) (Q : ρ → Prop) (f : σ → ρ → σ)
    (h : ∀ s r, Q r → P s → P (f s r)) :
    ∀ (rs : List ρ), (∀ r ∈ rs, Q r) → ∀ s, P s → P (rs.foldl f s) := by
  intro rs
  induction rs with
  | nil => intro _ s hs; exact hs
  | cons r rs ih =>
    intro hq s hs
    exact ih (fun x hx => hq x (List.mem_cons_of_mem _ hx)) _
      (h s r (hq r (List.mem_cons_self _ _)) hs)

/-- `update_zone` never touches the `photos` table. -/
lemma update_zone_photos (latitude longitude severity_score radius : ℚ) (ts : Nat) (st : DB) :
    (update_zone latitude longitude severity_score radius ts st).photos = st.photos := by
  unfold update_zone
  split <;> rfl

/-- `update_zone` reads and writes only the `zones` table and its
autoincrement counter, so its effect on those is determined by them. -/
lemma update_zone_congr (latitude longitude severity_score radius : ℚ) (ts : Nat)
    (st1 st2 : DB) (hz : st1.zones = st2.zones) (hn : st1.nextZoneId = st2.nextZoneId) :
    (update_zone latitude longitude severity_score radius ts st1).zones =
      (update_zone latitude longitude severity_score radius ts st2).zones ∧
    (update_zone latitude longitude severity_score radius ts st1).nextZoneId =
      (update_zone latitude longitude severity_score radius ts st2).nextZoneId := by
  unfold update_zone
  rw [hz, hn]
  cases h : st2.zones.find? (matchesLoc latitude longitude radius) <;> simp [h]

/-- The `zones` table after a replay step is the one `update_zone` produces. -/
lemma replayStep_zones (radius : ℚ) (st : DB) (r : ReportInput) :
    (replayStep radius st r).zones =
      (update_zone r.latitude r.longitude r.severity_score radius r.tsZone st).zones := by
  unfold replayStep add_photoR
  refine (update_zone_congr _ _ _ _ _ _ st ?_ ?_).1 <;> rfl

/-- The zone autoincrement counter after a replay step is the one
`update_zone` produces. -/
lemma replayStep_nextZoneId (radius : ℚ) (st : DB) (r : ReportInput) :
    (replayStep radius st r).nextZoneId =
      (update_zone r.latitude r.longitude r.severity_score radius r.tsZone st).nextZoneId := by
  unfold replayStep add_photoR
  refine (update_zone_congr _ _ _ _ _ _ st ?_ ?_).2 <;> rfl

/-! ### Claim C2 -/

/-- Claim C2, counterexample: with the zone-update step failing, `add_photo`
as written propagates the failure (no report identifier is returned) and the
durable state still holds no report — the claim that the report is persisted
and its identifier returned even when the zone side fails is false of the
code, which commits the photo `INSERT` only after `update_zone` returns. -/
theorem claim_C2_counterexample :
    add_photoE true "a.jpg" 0 0 "mixed" 8 1 1 2 emptyDB = Except.error emptyDB ∧
      emptyDB.photos = [] :=
  ⟨rfl, rfl⟩

/-- Claim C2 as amended: when the zone-update step succeeds, `add_photo`
returns the new report identifier with the updated state; when the
zone-update step fails, the whole call fails and the report insert is
discarded (the durable state is exactly the pre-call state), so the report
identifier is returned precisely when the zone step succeeds. -/
theorem claim_C2_amended (image_path : String) (latitude longitude : ℚ)
    (waste_category : String) (severity_score confidence : ℚ)
    (tsPhoto tsZone : Nat) (st : DB) :
    add_photoE false image_path latitude longitude waste_category severity_score
        confidence tsPhoto tsZone st =
      Except.ok (add_photo image_path latitude longitude waste_category severity_score
        confidence tsPhoto tsZone st) ∧
    add_photoE true image_path latitude longitude waste_category severity_score
        confidence tsPhoto tsZone st = Except.error st :=
  ⟨rfl, rfl⟩

/-! ### Claim C3 -/

/-- The photo `ORDER BY` comparison implies timestamp-descending. -/
lemma pleR_timestamp {a b : Photo} (h : pleR a b) : b.timestamp ≤ a.timestamp := by
  rcases h with h | ⟨h, _⟩ <;> omega

/-- Claim C8: `get_photos_in_bounds` returns exactly the stored photos
inside the (inclusive) bounding box, ordered by timestamp descending, and
`get_all_photos` returns all stored photos in the same
timestamp-descending order. -/
theorem claim_C8_bbox (north south east west : ℚ) (st : DB) :
    (∀ p : Photo, p ∈ get_photos_in_bounds north south east west st ↔
        p ∈ st.photos ∧ south ≤ p.latitude ∧ p.latitude ≤ north ∧
          west ≤ p.longitude ∧ p.longitude ≤ east) ∧
    (get_photos_in_bounds north south east west st).Pairwise
      (fun a b => b.timestamp ≤ a.timestamp) ∧
    (∀ p : Photo, p ∈ get_all_photos st ↔ p ∈ st.photos) ∧
    (get_all_photos st).Pairwise (fun a b => b.timestamp ≤ a.timestamp) := by
  refine ⟨?_, ?_, ?_, ?_⟩
  · intro p
    rw [get_photos_in_bounds, List.mem_insertionSort, List.mem_filter]
    simp only [decide_eq_true_eq]
    tauto
  · exact List.Pairwise.imp pleR_timestamp
      (List.sorted_insertionSort pleR (st.photos.filter fun p =>
        decide (p.latitude ≤ north ∧ south ≤ p.latitude ∧ p.longitude ≤ east ∧
          west ≤ p.longitude)))
  · intro p
    rw [get_all_photos, List.mem_insertionSort]
  · exact List.Pairwise.imp pleR_timestamp (List.sorted_insertionSort pleR st.photos)

/-! ### Branch lemmas for `update_zone` -/

/-- Effect of `update_zone` when no existing zone's cell contains the
report location: one fresh zone row is appended. -/
lemma update_zone_none {latitude longitude severity_score radius : ℚ} {ts : Nat} {st : DB}
    (h : st.zones.find? (matchesLoc latitude longitude radius) = none) :
    (update_zone latitude longitude severity_score radius ts st).zones =
      st.zones ++ [⟨st.nextZoneId, latitude, longitude, radius, pyInt severity_score, 1, ts⟩] ∧
    (update_zone latitude longitude severity_score radius ts st).nextZoneId =
      st.nextZoneId + 1 := by
  unfold update_zone
  rw [h]
  exact ⟨rfl, rfl⟩

/-- Effect of `update_zone` when `fetchone()` finds the zone `z`: exactly
the rows with `z`'s id get the recomputed level, the incremented count and
the fresh timestamp. -/
lemma update_zone_some {latitude longitude severity_score radius : ℚ} {ts : Nat} {st : DB}
    {z : Zone} (h : st.zones.find? (matchesLoc latitude longitude radius) = some z) :
    (update_zone latitude longitude severity_score radius ts st).zones =
      st.zones.map (fun w =>
        if w.id = z.id then
          { w with
            waste_level := pyInt (((z.waste_level : ℚ) * ((z.photo_count + 1 : ℕ) : ℚ) +
              severity_score) / (((z.photo_count + 1 : ℕ) : ℚ) + 1)),
            photo_count := z.photo_count + 1, last_updated := ts }
        else w) ∧
    (update_zone latitude longitude severity_score radius ts st).nextZoneId =
      st.nextZoneId := by
  unfold update_zone
  rw [h]
  exact ⟨rfl, rfl⟩

lemma pyInt_five : pyInt (5 : ℚ) = 5 := by norm_num [pyInt]

lemma matchesLoc_B_A : matchesLoc 1 1 defaultRadius zoneA = false := by
  simp only [matchesLoc, zoneA, defaultRadius, decide_eq_false_iff_not]
  norm_num

lemma find_A_none : emptyDB.zones.find?
    (matchesLoc reportA.latitude reportA.longitude defaultRadius) = none := rfl

/-- Replaying the first demo report creates exactly the first demo zone. -/
lemma replay_A_zones : (replayStep defaultRadius emptyDB reportA).zones = [zoneA] := by
  rw [replayStep_zones, (update_zone_none find_A_none).1]
  simp [emptyDB, zoneA, reportA, pyInt_five]

lemma replay_A_nextZoneId : (replayStep defaultRadius emptyDB reportA).nextZoneId = 2 := by
  rw [replayStep_nextZoneId, (update_zone_none find_A_none).2]
  rfl

/-- Replaying the two demo reports yields exactly the two demo zones, in
insertion order. -/
lemma replay_AB_zones : (replayR defaultRadius [reportA, reportB]).zones = [zoneA, zoneB] := by
  show (replayStep defaultRadius (replayStep defaultRadius emptyDB reportA) reportB).zones = _
  rw [replayStep_zones]
  have h2 : (replayStep defaultRadius emptyDB reportA).zones.find?
      (matchesLoc reportB.latitude reportB.longitude defaultRadius) = none := by
    rw [replay_A_zones]
    rw [List.find?_cons_of_neg]
    · rfl
    · simp [reportB, matchesLoc_B_A]
  rw [(update_zone_none h2).1, replay_A_zones, replay_A_nextZoneId]
  simp [zoneB, reportB, pyInt_five]

/-- Claim C7, counterexample: after two far-apart reports of equal severity
(timestamps 1 then 2), `get_all_zones` returns the zone last updated at 1
before the zone last updated at 2 — equal waste levels are not ordered
most-recent-first. -/
theorem claim_C7_counterexample :
    ¬ specZoneOrder (get_all_zones (replayR defaultRadius [reportA, reportB])) := by
  rw [get_all_zones, replay_AB_zones]
  have hsort : List.insertionSort zleR [zoneA, zoneB] = [zoneA, zoneB] := by
    simp [List.insertionSort, List.orderedInsert, zleR, zoneA, zoneB]
  rw [hsort]
  intro h
  rcases List.pairwise_cons.mp h with ⟨hab, _⟩
  rcases hab zoneB (List.mem_cons_self _ _) with h1 | ⟨h1, h2⟩
  · simp [zoneA, zoneB] at h1
  · simp [zoneA, zoneB] at h2

/-- Claim C7 as amended: `get_all_zones` returns all zone rows ordered by
`waste_level` descending; rows with equal `waste_level` appear in the
store's read order (ascending rowid), not by `last_updated`. -/
theorem claim_C7_amended (st : DB) :
    ((get_all_zones st).Pairwise fun a b =>
      b.waste_level < a.waste_level ∨ (a.waste_level = b.waste_level ∧ a.id ≤ b.id)) ∧
    List.Perm (get_all_zones st) st.zones :=
  ⟨List.sorted_insertionSort zleR st.zones, List.perm_insertionSort zleR st.zones⟩

/-! ### Claim C5 -/

/-- The row update in `update_zone` keeps every row's id. -/
lemma ite_update_id (z : Zone) (new_level : ℤ) (pc ts : Nat) (w : Zone) :
    (if w.id = z.id then
      { w with waste_level := new_level, photo_count := pc, last_updated := ts }
    else w).id = w.id := by
  by_cases h : w.id = z.id <;> simp [h]

/-- `update_zone` preserves the rowid ordering invariant. -/
lemma update_zone_ids (latitude longitude severity_score radius : ℚ) (ts : Nat) (st : DB)
    (h : zoneIdsOrdered st) :
    zoneIdsOrdered (update_zone latitude longitude severity_score radius ts st) := by
  obtain ⟨hp, hb⟩ := h
  cases hf : st.zones.find? (matchesLoc latitude longitude radius) with
  | some z =>
    obtain ⟨hz, hn⟩ := update_zone_some hf
    constructor
    · rw [hz, List.pairwise_map]
      simp only [ite_update_id]
      exact hp
    · intro z' hz'
      rw [hn]
      rw [hz] at hz'
      rcases List.mem_map.mp hz' with ⟨w, hw, rfl⟩
      rw [ite_update_id]
      exact hb w hw
  | none =>
    obtain ⟨hz, hn⟩ := update_zone_none hf
    constructor
    · rw [hz, List.pairwise_append]
      refine ⟨hp, List.pairwise_singleton _ _, ?_⟩
      intro a ha b hbm
      rcases List.mem_singleton.mp hbm with rfl
      exact hb a ha
    · intro z' hz'
      rw [hn]
      rw [hz] at hz'
      rcases List.mem_append.mp hz' with hm | hm
      · exact Nat.lt_succ_of_lt (hb _ hm)
      · rcases List.mem_singleton.mp hm with rfl
        exact Nat.lt_succ_self _

/-- Every replayed database satisfies the rowid ordering invariant. -/
lemma replayR_idsOrdered (radius : ℚ) (rs : List ReportInput) :
    zoneIdsOrdered (replayR radius rs) := by
  refine foldl_inv zoneIdsOrdered (fun _ => True) (replayStep radius) ?_ rs
    (fun _ _ => trivial) emptyDB ?_
  · intro s r _ hs
    have h2 := update_zone_ids r.latitude r.longitude r.severity_score radius r.tsZone s hs
    unfold zoneIdsOrdered at h2 ⊢
    rw [replayStep_zones, replayStep_nextZoneId]
    exact h2
  · exact ⟨List.Pairwise.nil, by intro z hz; simp [emptyDB] at hz⟩

/-- Claim C5: the cell test of `get_zone_by_location` is the claimed strict
square containment; the operation writes nothing; a `some` result is the
first containing zone in the store's read order; a `none` result means no
zone's cell contains the location; and in every replayed store the read
order is ascending zone id. -/
theorem claim_C5_find_zone (latitude longitude radius : ℚ) (st : DB) :
    (∀ z : Zone, matchesLoc latitude longitude radius z = true ↔
        |latitude - z.center_lat| < radius ∧ |longitude - z.center_lng| < radius) ∧
    (get_zone_by_locationSt latitude longitude radius st).2 = st ∧
    (∀ z : Zone, get_zone_by_location latitude longitude radius st = some z →
        matchesLoc latitude longitude radius z = true ∧
        ∃ l1 l2, st.zones = l1 ++ z :: l2 ∧
          ∀ x ∈ l1, matchesLoc latitude longitude radius x = false) ∧
    (get_zone_by_location latitude longitude radius st = none ↔
        ∀ z ∈ st.zones, matchesLoc latitude longitude radius z = false) ∧
    (∀ rs : List ReportInput, (replayR radius rs).zones.Pairwise fun a b => a.id < b.id) := by
  refine ⟨?_, rfl, ?_, ?_, ?_⟩
  · intro z
    simp only [matchesLoc, decide_eq_true_eq]
    rw [abs_sub_comm z.center_lat, abs_sub_comm z.center_lng]
  · intro z h
    obtain ⟨l1, l2, hsplit, hpre, hmatch⟩ := find?_first _ h
    exact ⟨hmatch, l1, l2, hsplit, hpre⟩
  · constructor
    · intro h z hz
      simpa using List.find?_eq_none.mp h z hz
    · intro h
      apply List.find?_eq_none.mpr
      intro z hz
      simp [h z hz]
  · intro rs
    exact (replayR_idsOrdered radius rs).1

lemma matchesLoc_A_A : matchesLoc 0 0 defaultRadius zoneA = true := by
  simp only [matchesLoc, zoneA, defaultRadius, decide_eq_true_eq]
  norm_num

/-- Witness for C5: on a store holding one zone whose cell contains the
origin, the lookup returns that zone as the first match. -/
theorem claim_C5_witness :
    matchesLoc 0 0 defaultRadius zoneA = true ∧
      ∃ l1 l2, dbA.zones = l1 ++ zoneA :: l2 ∧
        ∀ x ∈ l1, matchesLoc 0 0 defaultRadius x = false :=
  (claim_C5_find_zone 0 0 defaultRadius dbA).2.2.1 zoneA (by
    show dbA.zones.find? (matchesLoc 0 0 defaultRadius) = some zoneA
    rw [show dbA.zones = [zoneA] from rfl, List.find?_cons_of_pos _ matchesLoc_A_A])

/-! ### Claim C9 -/

/-- The row update in `update_zone` keeps every row's radius. -/
lemma ite_update_radius (z : Zone) (new_level : ℤ) (pc ts : Nat) (w : Zone) :
    (if w.id = z.id then
      { w with waste_level := new_level, photo_count := pc, last_updated := ts }
    else w).radius = w.radius := by
  by_cases h : w.id = z.id <;> simp [h]

/-- `update_zone` called with radius `r` leaves a store whose zones all
carry radius `r` in that same state. -/
lemma update_zone_radius_inv (latitude longitude severity_score r : ℚ) (ts : Nat) (st : DB)
    (h : ∀ z ∈ st.zones, z.radius = r) :
    ∀ z ∈ (update_zone latitude longitude severity_score r ts st).zones, z.radius = r := by
  cases hf : st.zones.find? (matchesLoc latitude longitude r) with
  | some z0 =>
    intro z hz
    rw [(update_zone_some hf).1] at hz
    rcases List.mem_map.mp hz with ⟨w, hw, rfl⟩
    rw [ite_update_radius]
    exact h w hw
  | none =>
    intro z hz
    rw [(update_zone_none hf).1] at hz
    rcases List.mem_append.mp hz with hm | hm
    · exact h z hm
    · rcases List.mem_singleton.mp hm with rfl
      rfl

/-- Every zone of a store replayed with fixed radius `r` has radius `r`. -/
lemma replayR_radius (r : ℚ) (rs : List ReportInput) :
    ∀ z ∈ (replayR r rs).zones, z.radius = r := by
  refine foldl_inv (fun st => ∀ z ∈ st.zones, z.radius = r) (fun _ => True)
    (replayStep r) ?_ rs (fun _ _ => trivial) emptyDB ?_
  · intro s rp _ hs z hz
    rw [replayStep_zones] at hz
    exact update_zone_radius_inv _ _ _ _ _ _ hs z hz
  · intro z hz
    simp [emptyDB] at hz

/-- Claim C9: every zone ever created through the source's ingestion path
carries the configured default radius `0.005`, and the cell-containment
test of both lookup sites reads only the radius parameter, never the
stored radius column (changing the stored radius changes no containment
decision). -/
theorem claim_C9_radius :
    (∀ (rs : List ReportInput) (z : Zone),
        z ∈ (replayR defaultRadius rs).zones → z.radius = defaultRadius) ∧
    (∀ (latitude longitude radius ρ : ℚ) (z : Zone),
        matchesLoc latitude longitude radius { z with radius := ρ } =
          matchesLoc latitude longitude radius z) := by
  constructor
  · intro rs z hz
    exact replayR_radius defaultRadius rs z hz
  · intro latitude longitude radius ρ z
    rfl

/-- Witness for C9 at the one-report replay. -/
theorem claim_C9_witness : zoneA.radius = defaultRadius :=
  claim_C9_radius.1 [reportA] zoneA (by
    show zoneA ∈ (replayStep defaultRadius emptyDB reportA).zones
    rw [replay_A_zones]
    exact List.mem_singleton.mpr rfl)

/-! ### Claim C6 -/

/-- One `update_zone` call with severity in `[0, 10]` keeps every zone's
waste level an integer in `[0, 10]`. -/
lemma update_zone_waste_inv (latitude longitude s r : ℚ) (ts : Nat) (st : DB)
    (hs0 : 0 ≤ s) (hs10 : s ≤ 10)
    (h : ∀ z ∈ st.zones, 0 ≤ z.waste_level ∧ z.waste_level ≤ 10) :
    ∀ z ∈ (update_zone latitude longitude s r ts st).zones,
      0 ≤ z.waste_level ∧ z.waste_level ≤ 10 := by
  cases hf : st.zones.find? (matchesLoc latitude longitude r) with
  | some z0 =>
    intro z hz
    rw [(update_zone_some hf).1] at hz
    rcases List.mem_map.mp hz with ⟨w, hw, rfl⟩
    by_cases hc : w.id = z0.id
    · rw [if_pos hc]
      obtain ⟨h0, h10⟩ := h z0 (List.mem_of_find?_eq_some hf)
      dsimp only
      have hcast : ((z0.photo_count + 1 : ℕ) : ℚ) = (z0.photo_count : ℚ) + 1 := by
        push_cast
        ring
      rw [hcast]
      have hden : ((z0.photo_count : ℚ) + 1) + 1 = (z0.photo_count : ℚ) + 2 := by ring
      rw [hden]
      obtain ⟨hq0, hq10⟩ := avg_mem_range h0 h10 hs0 hs10
      rw [pyInt_eq_floor hq0]
      exact floor_mem_range hq0 hq10
    · rw [if_neg hc]
      exact h w hw
  | none =>
    intro z hz
    rw [(update_zone_none hf).1] at hz
    rcases List.mem_append.mp hz with hm | hm
    · exact h z hm
    · rcases List.mem_singleton.mp hm with rfl
      dsimp only
      rw [pyInt_eq_floor hs0]
      exact floor_mem_range hs0 hs10

/-- Replay-wide waste-level invariant. -/
lemma replayR_waste (radius : ℚ) (rs : List ReportInput)
    (h : ∀ r ∈ rs, 0 ≤ r.severity_score ∧ r.severity_score ≤ 10) :
    ∀ z ∈ (replayR radius rs).zones, 0 ≤ z.waste_level ∧ z.waste_level ≤ 10 := by
  refine foldl_inv (fun st => ∀ z ∈ st.zones, 0 ≤ z.waste_level ∧ z.waste_level ≤ 10)
    (fun r => 0 ≤ r.severity_score ∧ r.severity_score ≤ 10) (replayStep radius)
    ?_ rs h emptyDB ?_
  · intro s rp hq hs z hz
    rw [replayStep_zones] at hz
    exact update_zone_waste_inv _ _ _ _ _ _ hq.1 hq.2 hs z hz
  · intro z hz
    simp [emptyDB] at hz

/-- Claim C6: with all severities in `[0, 10]`, every zone's waste level is
at all times an integer in `[0, 10]`; the conversion applied to the running
quotient is truncation with floor semantics (never exceeding, hence never
rounding up, the exact value). -/
theorem claim_C6_invariant (radius : ℚ) (rs : List ReportInput)
    (h : ∀ r ∈ rs, 0 ≤ r.severity_score ∧ r.severity_score ≤ 10) :
    (∀ z ∈ (replayR radius rs).zones, 0 ≤ z.waste_level ∧ z.waste_level ≤ 10) ∧
    (∀ q : ℚ, 0 ≤ q → pyInt q = ⌊q⌋ ∧ (⌊q⌋ : ℚ) ≤ q) :=
  ⟨replayR_waste radius rs h, fun q hq => ⟨pyInt_eq_floor hq, Int.floor_le q⟩⟩

/-- Witness for C6 at the one-report replay. -/
theorem claim_C6_witness : 0 ≤ zoneA.waste_level ∧ zoneA.waste_level ≤ 10 :=
  (claim_C6_invariant defaultRadius [reportA] (by
      intro r hr
      rcases List.mem_singleton.mp hr with rfl
      constructor <;> norm_num [reportA])).1 zoneA (by
    show zoneA ∈ (replayStep defaultRadius emptyDB reportA).zones
    rw [replay_A_zones]
    exact List.mem_singleton.mpr rfl)

/-! ### Claim C10 -/

/-- A map that fixes every element of a list leaves the list unchanged. -/
lemma map_eq_self_of {α : Type} (f : α → α) :
    ∀ (l : List α), (∀ x ∈ l, f x = x) → l.map f = l := by
  intro l
  induction l with
  | nil => intro _; rfl
  | cons a t ih =>
    intro h
    rw [List.map_cons, h a (List.mem_cons_self _ _),
      ih (fun x hx => h x (List.mem_cons_of_mem _ hx))]

/-- With primary-key-unique rowids, splitting the table at one row makes
that row's id foreign to both sides. -/
lemma nodup_split_ids {l1 l2 : List Zone} {z : Zone}
    (hn : ((l1 ++ z :: l2).map Zone.id).Nodup) :
    (∀ x ∈ l1, x.id ≠ z.id) ∧ (∀ x ∈ l2, x.id ≠ z.id) := by
  rw [List.map_append, List.map_cons, List.nodup_append] at hn
  obtain ⟨h1, h2, hd⟩ := hn
  constructor
  · intro x hx heq
    exact hd (List.mem_map_of_mem Zone.id hx)
      (by rw [heq]; exact List.mem_cons_self _ _)
  · intro x hx heq
    rcases List.nodup_cons.mp h2 with ⟨hz, _⟩
    exact hz (by rw [← heq]; exact List.mem_map_of_mem Zone.id hx)

/-- Claim C10: one `update_zone` call leaves the photo table untouched and
either rewrites exactly one existing zone row — keeping its id, center and
radius, with every other row literally unchanged — or only appends one
fresh row.  Uniqueness of rowids (the `INTEGER PRIMARY KEY`) is the
hypothesis. -/
theorem claim_C10_frame (latitude longitude severity_score radius : ℚ) (ts : Nat) (st : DB)
    (hn : (st.zones.map Zone.id).Nodup) :
    (update_zone latitude longitude severity_score radius ts st).photos = st.photos ∧
    ((∃ pre z z' post,
        st.zones = pre ++ z :: post ∧
        (update_zone latitude longitude severity_score radius ts st).zones =
          pre ++ z' :: post ∧
        z'.id = z.id ∧ z'.center_lat = z.center_lat ∧
        z'.center_lng = z.center_lng ∧ z'.radius = z.radius) ∨
      ∃ w, (update_zone latitude longitude severity_score radius ts st).zones =
        st.zones ++ [w]) := by
  refine ⟨update_zone_photos _ _ _ _ _ _, ?_⟩
  cases hf : st.zones.find? (matchesLoc latitude longitude radius) with
  | none => exact Or.inr ⟨_, (update_zone_none hf).1⟩
  | some z0 =>
    obtain ⟨l1, l2, hsplit, hpre, hm⟩ := find?_first _ hf
    obtain ⟨hids1, hids2⟩ := nodup_split_ids (by rw [hsplit] at hn; exact hn)
    left
    refine ⟨l1, z0,
      { z0 with
        waste_level := pyInt (((z0.waste_level : ℚ) * ((z0.photo_count + 1 : ℕ) : ℚ) +
          severity_score) / (((z0.photo_count + 1 : ℕ) : ℚ) + 1)),
        photo_count := z0.photo_count + 1, last_updated := ts },
      l2, hsplit, ?_, rfl, rfl, rfl, rfl⟩
    rw [(update_zone_some hf).1, hsplit, List.map_append, List.map_cons]
    congr 1
    · exact map_eq_self_of _ l1 (fun x hx => if_neg (hids1 x hx))
    congr 1
    · rw [if_pos rfl]
    · exact map_eq_self_of _ l2 (fun x hx => if_neg (hids2 x hx))

/-- Witness for C10 on the one-zone store. -/
theorem claim_C10_witness :
    (update_zone 0 0 3 defaultRadius 7 dbA).photos = dbA.photos ∧
    ((∃ pre z z' post,
        dbA.zones = pre ++ z :: post ∧
        (update_zone 0 0 3 defaultRadius 7 dbA).zones = pre ++ z' :: post ∧
        z'.id = z.id ∧ z'.center_lat = z.center_lat ∧
        z'.center_lng = z.center_lng ∧ z'.radius = z.radius) ∨
      ∃ w, (update_zone 0 0 3 defaultRadius 7 dbA).zones = dbA.zones ++ [w]) :=
  claim_C10_frame 0 0 3 defaultRadius 7 dbA (by simp [dbA, zoneA])

/-! ### Claim C1 -/

lemma matchesLoc_C : matchesLoc 0 0 defaultRadius zoneC = true := by
  simp only [matchesLoc, zoneC, defaultRadius, decide_eq_true_eq]
  norm_num

/-- The `add_photo` ingestion path changes the zone table exactly as the
inner `update_zone` call does. -/
lemma add_photo_zones (image_path : String) (latitude longitude : ℚ)
    (waste_category : String) (severity_score confidence : ℚ)
    (tsPhoto tsZone : Nat) (st : DB) :
    (add_photo image_path latitude longitude waste_category severity_score confidence
        tsPhoto tsZone st).2.zones =
      (update_zone latitude longitude severity_score defaultRadius tsZone st).zones := by
  unfold add_photo add_photoR
  refine (update_zone_congr _ _ _ _ _ _ st ?_ ?_).1 <;> rfl

/-- Claim C1, counterexample: a zone with level 8 and count 1 receives a
severity-0 report inside its cell.  The claim's formula gives
`floor((8*1+0)/(1+1)) = 4`, but the code stores 5, because it increments
the count before forming the quotient (`int((8*2+0)/(2+1))`). -/
theorem claim_C1_counterexample :
    ((add_photo "c.jpg" 0 0 "mixed" 0 1 5 6 dbC).2.zones.map Zone.waste_level = [5]) ∧
    ⌊((8 : ℚ) * 1 + 0) / (1 + 1)⌋ = 4 ∧ (5 : ℤ) ≠ 4 := by
  have hfind : dbC.zones.find? (matchesLoc 0 0 defaultRadius) = some zoneC := by
    show [zoneC].find? _ = _
    rw [List.find?_cons_of_pos _ matchesLoc_C]
  refine ⟨?_, by norm_num, by norm_num⟩
  rw [add_photo_zones, (update_zone_some hfind).1]
  show ([zoneC].map _).map Zone.waste_level = [5]
  simp only [List.map_cons, List.map_nil, zoneC]
  norm_num [pyInt]

/-- Claim C1 as amended: when the first zone found in read order has level
`L` and count `c`, ingesting a severity-`s` report inside its cell stores
level `floor((L*(c+1)+s)/(c+2))` — the incremented count weights the old
level and the denominator is one more — and count `c+1`; the fresh
timestamp is the zone-side clock read. -/
theorem claim_C1_amended (image_path : String) (latitude longitude : ℚ)
    (waste_category : String) (severity_score confidence : ℚ)
    (tsPhoto tsZone : Nat) (st : DB) (z : Zone)
    (hfind : st.zones.find? (matchesLoc latitude longitude defaultRadius) = some z)
    (hL : 0 ≤ z.waste_level) (hs : 0 ≤ severity_score) :
    (add_photo image_path latitude longitude waste_category severity_score confidence
        tsPhoto tsZone st).2.zones =
      st.zones.map fun w =>
        if w.id = z.id then
          { w with
            waste_level := ⌊((z.waste_level : ℚ) * ((z.photo_count : ℚ) + 1) +
              severity_score) / ((z.photo_count : ℚ) + 2)⌋,
            photo_count := z.photo_count + 1, last_updated := tsZone }
        else w := by
  rw [add_photo_zones, (update_zone_some hfind).1]
  have hfg : (fun w : Zone =>
      if w.id = z.id then
        { w with
          waste_level := pyInt (((z.waste_level : ℚ) * ((z.photo_count + 1 : ℕ) : ℚ) +
            severity_score) / (((z.photo_count + 1 : ℕ) : ℚ) + 1)),
          photo_count := z.photo_count + 1, last_updated := tsZone }
      else w) =
      (fun w : Zone =>
      if w.id = z.id then
        { w with
          waste_level := ⌊((z.waste_level : ℚ) * ((z.photo_count : ℚ) + 1) +
            severity_score) / ((z.photo_count : ℚ) + 2)⌋,
          photo_count := z.photo_count + 1, last_updated := tsZone }
      else w) := by
    funext w
    by_cases hc : w.id = z.id
    · rw [if_pos hc, if_pos hc]
      have hcast : ((z.photo_count + 1 : ℕ) : ℚ) = (z.photo_count : ℚ) + 1 := by
        push_cast
        ring
      have hden : ((z.photo_count : ℚ) + 1) + 1 = (z.photo_count : ℚ) + 2 := by ring
      rw [hcast, hden]
      have hLq : (0 : ℚ) ≤ (z.waste_level : ℚ) := by exact_mod_cast hL
      have hcq : (0 : ℚ) ≤ (z.photo_count : ℚ) := Nat.cast_nonneg _
      rw [pyInt_eq_floor (by positivity)]
    · rw [if_neg hc, if_neg hc]
  rw [hfg]

/-- Witness for the amended C1: the severity-0 report on `dbC` stores level
`floor(16/3) = 5` and count 2. -/
theorem claim_C1_witness :
    (add_photo "c.jpg" 0 0 "mixed" 0 1 5 6 dbC).2.zones =
      dbC.zones.map fun w =>
        if w.id = zoneC.id then
          { w with
            waste_level := ⌊((zoneC.waste_level : ℚ) * ((zoneC.photo_count : ℚ) + 1) +
              0) / ((zoneC.photo_count : ℚ) + 2)⌋,
            photo_count := zoneC.photo_count + 1, last_updated := 6 }
        else w :=
  claim_C1_amended "c.jpg" 0 0 "mixed" 0 1 5 6 dbC zoneC
    (by
      show [zoneC].find? _ = _
      rw [List.find?_cons_of_pos _ matchesLoc_C])
    (by norm_num [zoneC]) (by norm_num)

/-! ### Claim C4 -/

/-- Claim C4, counterexample: a first report whose photo row is stamped
with the first clock read (3) creates a zone whose `last_updated` is the
second clock read (4) taken inside `update_zone` — the zone's timestamp is
not the report's stored timestamp. -/
theorem claim_C4_counterexample :
    ((add_photo "a.jpg" 0 0 "mixed" 8 1 3 4 emptyDB).2.zones.map Zone.last_updated = [4]) ∧
    ((add_photo "a.jpg" 0 0 "mixed" 8 1 3 4 emptyDB).2.photos.map Photo.timestamp = [3]) ∧
    (4 : ℕ) ≠ 3 :=
  ⟨rfl, rfl, by decide⟩

/-- Claim C4 as amended: a report whose location no existing cell contains
creates exactly one new zone, centered exactly at the report's location,
with the configured default radius, `waste_level = floor(severity)`,
`photo_count = 1`, and `last_updated` equal to the timestamp read inside
`update_zone` (a second clock read, not the photo row's timestamp). -/
theorem claim_C4_amended (image_path waste_category : String)
    (latitude longitude severity_score confidence : ℚ) (tsPhoto tsZone : Nat) (st : DB)
    (hnone : ∀ z ∈ st.zones, matchesLoc latitude longitude defaultRadius z = false)
    (hs : 0 ≤ severity_score) :
    (add_photo image_path latitude longitude waste_category severity_score confidence
        tsPhoto tsZone st).2.zones =
      st.zones ++ [⟨st.nextZoneId, latitude, longitude, defaultRadius,
        ⌊severity_score⌋, 1, tsZone⟩] := by
  have hf : st.zones.find? (matchesLoc latitude longitude defaultRadius) = none := by
    apply List.find?_eq_none.mpr
    intro x hx
    simp [hnone x hx]
  rw [add_photo_zones, (update_zone_none hf).1, pyInt_eq_floor hs]

/-- Witness for the amended C4 on the empty store. -/
theorem claim_C4_witness :
    (add_photo "a.jpg" 0 0 "mixed" 8 1 3 4 emptyDB).2.zones =
      emptyDB.zones ++ [⟨emptyDB.nextZoneId, 0, 0, defaultRadius, ⌊(8 : ℚ)⌋, 1, 4⟩] :=
  claim_C4_amended "a.jpg" "mixed" 0 0 8 1 3 4 emptyDB
    (by intro z hz; simp [emptyDB] at hz) (by norm_num)
